import Mathlib

/-!
Verification of the ttsfm long-text synthesis pipeline.

Shallow embedding of the Python sources:
  * `ttsfm/utils.py`   — text segmentation (`split_text_by_length`,
    `_split_long_segment`, `_split_into_sentences`) and `sanitize_text`;
  * `ttsfm/audio.py`   — audio combination (`combine_audio_chunks`,
    `_simple_wav_concatenation`);
  * `ttsfm/client.py` and `ttsfm/async_client.py` — request construction and
    the retry loop of `_make_request`, `generate_speech_batch`,
    `generate_speech_long_text`;
  * `server/handlers.py` — the queue server's `process_tts_request` retry loop;
  * `ttsfm-web/websocket_handler.py` — the streaming event loop.

Python strings are modelled as `List Char`, byte strings as `List Nat`,
Python `int` parameters as `Int`.  A single whitespace predicate models the
whitespace class used by Python's `str.strip` / `str.split` / `\s`.
Index-based Python loops are modelled as structurally recursive functions
over the remaining input, so that every definition evaluates by `decide`.
-/

/-- Whitespace predicate shared by the models of `str.strip`, `str.split`
and the `\s` regex class. -/
def pyIsSpace (c : Char) : Bool := c.isWhitespace

def notSpace (c : Char) : Bool := !(pyIsSpace c)

/-- Model of Python `str.strip()`: drop whitespace from both ends. -/
def pyStrip (s : List Char) : List Char :=
  ((s.dropWhile pyIsSpace).reverse.dropWhile pyIsSpace).reverse

/-- The non-whitespace characters of a string, in order. -/
def nonSpaceChars (s : List Char) : List Char := s.filter notSpace

/-- Model of Python `str.split()` (no argument); `cur` is the word being
accumulated.  Whitespace flushes the word; empty strings are never
produced. -/
def pySplitAux : List Char → List Char → List (List Char)
  | [], cur => if cur.isEmpty then [] else [cur]
  | c :: rest, cur =>
    if pyIsSpace c then (if cur.isEmpty then [] else [cur]) ++ pySplitAux rest []
    else pySplitAux rest (cur ++ [c])

def pySplit (s : List Char) : List (List Char) := pySplitAux s []

/-- Model of Python `" ".join(ws)`. -/
def joinSpace : List (List Char) → List Char
  | [] => []
  | [w] => w
  | w :: x :: ws => w ++ ' ' :: joinSpace (x :: ws)

/-- `_SENTENCE_TERMINATORS = {".", "!", "?"}` from `ttsfm/utils.py`. -/
def sentTerm (c : Char) : Bool := c = '.' || c = '!' || c = '?'

/-- Emit the stripped buffer when it is non-empty
(`sentence = "".join(buffer).strip(); if sentence: sentences.append(...)`). -/
def emitStrip (buf : List Char) : List (List Char) :=
  if (pyStrip buf).isEmpty then [] else [pyStrip buf]

/-- Loop of `_split_into_sentences` (`ttsfm/utils.py`).  The Python loop, on
the first terminator of a run, absorbs the whole terminator run into the
buffer, emits the stripped buffer, and resumes after the run.  Equivalently,
modelled here one character at a time: `inRun` records that the previous
character was a terminator; the buffer is flushed at the first character
after a terminator run. -/
def sentencesAux : List Char → List Char → Bool → List (List Char)
  | [], buf, _ => emitStrip buf
  | c :: rest, buf, inRun =>
    if inRun && !(sentTerm c) then emitStrip buf ++ sentencesAux rest [c] false
    else sentencesAux rest (buf ++ [c]) (sentTerm c)

/-- `_split_into_sentences(text)` from `ttsfm/utils.py`. -/
def split_into_sentences (text : List Char) : List (List Char) :=
  sentencesAux text [] false

/-- Model of `for i in range(0, len(s), m): s[i:i+m]` for `m ≥ 1` (the
callers always pass a clamped `m` in `[1, 1000]`): `cur` is the slice being
accumulated and `k` its remaining capacity. -/
def chunkEveryAux (m : Nat) : List Char → List Char → Nat → List (List Char)
  | [], cur, _ => if cur.isEmpty then [] else [cur]
  | c :: rest, cur, 0 => cur :: chunkEveryAux m rest [c] (m - 1)
  | c :: rest, cur, k + 1 => chunkEveryAux m rest (cur ++ [c]) k

def chunkEvery (m : Nat) : List Char → List (List Char)
  | [] => []
  | c :: rest => chunkEveryAux m rest [c] (m - 1)

/-- Keep only chunks that are non-empty after stripping
(Python `if chunk.strip()` filters). -/
def dropBlank (l : List (List Char)) : List (List Char) :=
  l.filter (fun c => !(pyStrip c).isEmpty)

/-- `max_length = max(1, min(max_length, 1000))` from `ttsfm/utils.py`,
appearing both in `split_text_by_length` and `_split_long_segment`. -/
def clampLimit (m : Int) : Nat := (max 1 (min m 1000)).toNat

/-- `if current_words: parts.append(" ".join(current_words))`. -/
def flushJoin (cur : List (List Char)) : List (List Char) :=
  if cur.isEmpty then [] else [joinSpace cur]

/-- The word-packing loop of `_split_long_segment` (`ttsfm/utils.py`):
state is the remaining words, the current word group and its running joined
length.  A word longer than the limit flushes the group and is split at
character boundaries; otherwise it is added when it fits (counting a
separator) and flushes the group when it does not. -/
def slsLoop (m : Nat) : List (List Char) → List (List Char) → Nat → List (List Char)
  | [], cur, _ => flushJoin cur
  | w :: ws, cur, clen =>
    if m < w.length then
      flushJoin cur ++ dropBlank (chunkEvery m w) ++ slsLoop m ws [] 0
    else if clen + w.length + (if cur.isEmpty then 0 else 1) ≤ m then
      slsLoop m ws (cur ++ [w]) (clen + w.length + (if cur.isEmpty then 0 else 1))
    else
      flushJoin cur ++ slsLoop m ws [w] w.length

/-- Body of `_split_long_segment` after its clamp of `max_length`. -/
def split_long_segment_body (m : Nat) (seg : List Char) : List (List Char) :=
  if seg.length ≤ m then [seg]
  else if (pySplit seg).isEmpty then dropBlank (chunkEvery m seg)
  else slsLoop m (pySplit seg) [] 0

/-- `_split_long_segment(segment, max_length)` from `ttsfm/utils.py`:
clamps `max_length` into `[1, 1000]` and dispatches to the body. -/
def split_long_segment (seg : List Char) (maxLength : Int) : List (List Char) :=
  split_long_segment_body (clampLimit maxLength) seg

/-- The sentence-accumulation loop of `split_text_by_length`
(`ttsfm/utils.py`): sentences are packed into the current segment while the
joined length stays within the limit; an overflowing sentence flushes the
segment and, when itself oversized, is handed to `_split_long_segment`
(whose re-clamp of the already clamped limit is mirrored by
`max 1 (min m 1000)`). -/
def stblLoop (m : Nat) : List (List Char) → List (List Char) → Nat → List (List Char)
  | [], cur, _ => flushJoin cur
  | s :: ss, cur, clen =>
    if s.isEmpty then stblLoop m ss cur clen
    else if clen + (if cur.isEmpty then 0 else 1) + s.length ≤ m then
      stblLoop m ss (cur ++ [s]) (clen + (if cur.isEmpty then 0 else 1) + s.length)
    else
      flushJoin cur ++
        (if m < s.length then
          split_long_segment_body (max 1 (min m 1000)) s ++ stblLoop m ss [] 0
        else stblLoop m ss [s] s.length)

/-- `split_text_by_length(text, max_length=1000, preserve_words=True)` from
`ttsfm/utils.py`. -/
def split_text_by_length (text : List Char) (maxLength : Int) (preserveWords : Bool) :
    List (List Char) :=
  if text.isEmpty then []
  else
    let m := clampLimit maxLength
    if text.length ≤ m then [text]
    else
      dropBlank
        (if preserveWords then stblLoop m (split_into_sentences text) [] 0
         else dropBlank (chunkEvery m text))

example : split_text_by_length ['a', 'b'] 10 true = [['a', 'b']] := by decide

example : split_text_by_length [] 10 true = [] := by decide

example :
    split_text_by_length ['a', 'b', 'c', 'd'] 3 false = [['a', 'b', 'c'], ['d']] := by
  decide

example :
    split_text_by_length ['a', 'b', '.', ' ', 'c', 'd', '.'] 4 true =
      [['a', 'b', '.'], ['c', 'd', '.']] := by decide

example :
    split_text_by_length ['a', 'b', '.', 'c', 'd', ' ', 'x'] 4 true =
      [['a', 'b', '.'], ['c', 'd', ' ', 'x']] := by decide

example : pySplit [' ', 'a', 'b', ' ', ' ', 'c', ' '] = [['a', 'b'], ['c']] := by decide

example :
    split_into_sentences ['a', '.', '.', ' ', 'b', '!', ' ', 'c'] =
      [['a', '.', '.'], ['b', '!'], ['c']] := by decide

/-! ## Audio combination (`ttsfm/audio.py`) -/

deriving instance DecidableEq for Except

/-- Model of Python `str.lower()` on short format names. -/
def pyLower (s : String) : String := String.mk (s.data.map Char.toLower)

/-- Model of `n.to_bytes(4, byteorder="little")`: four little-endian bytes,
or `none` for the `OverflowError` raised when `n` does not fit. -/
def to_bytes_le4 (n : Nat) : Option (List Nat) :=
  if n < 4294967296 then
    some [n % 256, n / 256 % 256, n / 65536 % 256, n / 16777216 % 256]
  else none

/-- Read back a four-byte little-endian value. -/
def fromLe4 : List Nat → Nat
  | [b0, b1, b2, b3] => b0 + 256 * b1 + 65536 * b2 + 16777216 * b3
  | _ => 0

/-- `_simple_wav_concatenation(wav_chunks)` from `ttsfm/audio.py`: keep the
first chunk's 44-byte header, append every chunk's payload (bytes after
offset 44, contributed only when the chunk is longer than 44 bytes), rewrite
the overall-size field (bytes 4..8) and the data-size field (bytes 40..44).
The Python `try`/`except` around this body can only be triggered by
`to_bytes` overflowing, in which case it degrades to raw concatenation. -/
def simple_wav_concatenation (wav_chunks : List (List Nat)) : List Nat :=
  match wav_chunks with
  | [] => []
  | [c] => c
  | first :: rest =>
    if first.length < 44 then (first :: rest).flatten
    else
      let header := first.take 44
      let audio :=
        rest.foldl (fun acc c => if 44 < c.length then acc ++ c.drop 44 else acc)
          (first.drop 44)
      match to_bytes_le4 (header.length + audio.length - 8), to_bytes_le4 audio.length with
      | some tb, some db => (header.take 4 ++ tb ++ (header.drop 8).take 32 ++ db) ++ audio
      | _, _ => (first :: rest).flatten

/-- The interface of the optional `pydub.AudioSegment` dependency, an
external collaborator: decoding and re-encoding may fail (raise). -/
structure AudioLib (σ : Type) where
  from_mp3 : List Nat → Except String σ
  from_wav : List Nat → Except String σ
  add : σ → σ → σ
  exportAudio : σ → String → Except String (List Nat)

/-- `combine_audio_chunks(audio_chunks, format_type)` from `ttsfm/audio.py`.
`lib = none` models `AudioSegment is None` (pydub unavailable).  On the
pydub path every chunk is decoded by the requested format, the segments are
summed and exported once; any decode or export failure propagates (there is
no `try` around that path in the source). -/
def combine_audio_chunks {σ : Type} (lib : Option (AudioLib σ))
    (audio_chunks : List (List Nat)) (format_type : String) :
    Except String (List Nat) :=
  match audio_chunks with
  | [] => .ok []
  | c0 :: rest =>
    let fmt := pyLower format_type
    match lib with
    | none =>
      if fmt = "mp3" then
        .error "Combining MP3 audio requires pydub. Install ttsfm[web]."
      else .ok (simple_wav_concatenation (c0 :: rest))
    | some L => do
      let s0 ← if fmt = "mp3" then L.from_mp3 c0 else L.from_wav c0
      let ss ← rest.mapM (fun c => if fmt = "mp3" then L.from_mp3 c else L.from_wav c)
      L.exportAudio (ss.foldl L.add s0) (if fmt = "mp3" then "mp3" else "wav")

/-! ## Sanitization and the long-text pipeline
(`ttsfm/utils.py`, `ttsfm/client.py`, `ttsfm/async_client.py`) -/

/-- `QUOTE_TRANSLATION` from `ttsfm/utils.py`: fancy double quotes and the
backquote become a double quote, fancy single quotes and the acute accent
become an apostrophe. -/
def quoteTranslate (c : Char) : Char :=
  if c.toNat = 0x201C ∨ c.toNat = 0x201D ∨ c.toNat = 0x201E ∨ c.toNat = 0x201F ∨
      c.toNat = 0x60 then Char.ofNat 34
  else if c.toNat = 0x2019 ∨ c.toNat = 0x2018 ∨ c.toNat = 0x201A ∨ c.toNat = 0xB4 then
    Char.ofNat 39
  else c

/-- `normalized.replace(" ", " ")` from `sanitize_text`. -/
def nbspToSpace (c : Char) : Char := if c.toNat = 0xA0 then ' ' else c

/-- `re.sub(r"<[^>]+>", " ", s)`: `acc = none` outside a candidate tag;
`some acc` holds the characters consumed since the opening angle bracket.
A closing bracket ends the match (one space) unless nothing stood between
the brackets (the regex needs at least one inner character); end of input
flushes an unclosed candidate verbatim. -/
def removeTagsAux : List Char → Option (List Char) → List Char
  | [], none => []
  | [], some acc => acc
  | c :: rest, none =>
    if c = '<' then removeTagsAux rest (some [c]) else c :: removeTagsAux rest none
  | c :: rest, some acc =>
    if c = '>' then
      if acc.length ≤ 1 then acc ++ c :: removeTagsAux rest none
      else ' ' :: removeTagsAux rest none
    else removeTagsAux rest (some (acc ++ [c]))

def removeTags (s : List Char) : List Char := removeTagsAux s none

/-- `cleaned.replace("<", " ").replace(">", " ")` from `sanitize_text`. -/
def angleToSpace (c : Char) : Char := if c = '<' ∨ c = '>' then ' ' else c

/-- `re.sub(r"\s+", " ", s)`: collapse whitespace runs to a single space;
the flag records whether the previous character was whitespace. -/
def collapseWsAux : List Char → Bool → List Char
  | [], _ => []
  | c :: rest, prevWs =>
    if pyIsSpace c then
      if prevWs then collapseWsAux rest true else ' ' :: collapseWsAux rest true
    else c :: collapseWsAux rest false

def collapseWs (s : List Char) : List Char := collapseWsAux s false

/-- The transformation chain of `sanitize_text` after its guards, with the
standard library's `html.unescape` (an external collaborator) passed in. -/
def sanitize_body (unescapeHtml : List Char → List Char) (text : List Char) : List Char :=
  pyStrip (collapseWs
    ((removeTags ((unescapeHtml text).map (fun c => nbspToSpace (quoteTranslate c)))).map
      angleToSpace))

def tooLongMsg : String := "Input text too long for sanitization (max 50000 characters)"

/-- `sanitize_text(text)` from `ttsfm/utils.py`: empty input yields the
empty string, input longer than 50000 characters raises `ValueError`. -/
def sanitize_text (unescapeHtml : List Char → List Char) (text : List Char) :
    Except String (List Char) :=
  if text.isEmpty then .ok []
  else if 50000 < text.length then .error tooLongMsg
  else .ok (sanitize_body unescapeHtml text)

def noChunksMsg : String := "No valid text chunks found after processing"

/-- The front of `generate_speech_long_text` / `generate_speech_batch`
(`ttsfm/async_client.py` lines 226-252, `ttsfm/client.py` lines 246-259):
sanitize, split, and reject when no chunk survives; the surviving chunk
list is what gets dispatched to per-chunk synthesis. -/
def generate_speech_long_text (unescapeHtml : List Char → List Char) (text : List Char)
    (maxLength : Int) (preserveWords : Bool) : Except String (List (List Char)) :=
  match sanitize_text unescapeHtml text with
  | .error e => .error e
  | .ok clean =>
    let chunks := split_text_by_length clean maxLength preserveWords
    if chunks.isEmpty then .error noChunksMsg else .ok chunks

/-! ## Batch collection (`ttsfm/async_client.py` lines 334-365) -/

/-- `AsyncTTSClient.generate_speech_batch` after `asyncio.gather(...,
return_exceptions=True)`: walk the per-chunk outcomes in order and raise the
first exception encountered (non-`TTSException` values are re-wrapped, which
does not change the abort behaviour); only when every chunk succeeded is the
response list returned. -/
def generate_speech_batch {α : Type} : List (Except String α) → Except String (List α)
  | [] => .ok []
  | .error e :: _ => .error e
  | .ok r :: rest =>
    match generate_speech_batch rest with
    | .error e => .error e
    | .ok rs => .ok (r :: rs)

/-! ## Outbound request construction and retry loops
(`ttsfm/client.py` lines 371-499, `ttsfm/async_client.py` lines 379-448,
`server/handlers.py` lines 193-268) -/

/-- The form-encoded fields sent to the provider
(`form_data` in `_make_request`). -/
structure FormPayload where
  input : List Char
  voice : String
  generation : String
  response_format : String
deriving DecidableEq

/-- What the provider does on one attempt: audio bytes, an HTTP status,
or a network-level failure. -/
inductive UpstreamOutcome where
  | ok (body : List Nat) (contentType : String)
  | httpStatus (code : Nat)
  | timeout
  | connectionError
deriving DecidableEq

/-- `if response.status_code in [400, 401, 403, 404]: raise` from
`TTSClient._make_request`. -/
def nonRetryable (code : Nat) : Bool :=
  code = 400 || code = 401 || code = 403 || code = 404

/-- The retry loop of `_make_request` (`ttsfm/client.py` lines 427-499; the
async client's loop has the same shape).  `fd` is the `form_data` dict built
ONCE before the loop — each attempt sends `dict(form_data)`, a copy carrying
the same generation token.  `remaining` counts the attempts still allowed
after the current one (`max_retries - attempt`); a success with an empty
body raises (`Received empty audio data`); non-retryable statuses and
exhaustion raise.  Returns the payloads sent, one per outbound call, and
the final result. -/
def makeRequestLoop (fd : FormPayload) (outcome : Nat → UpstreamOutcome)
    (attempt remaining : Nat) : List FormPayload × Except String (List Nat) :=
  match outcome attempt, remaining with
    | .ok body _, _ =>
      ([fd], if body.isEmpty then .error "Received empty audio data from openai.fm"
             else .ok body)
    | .httpStatus code, 0 => ([fd], .error ("TTS request failed with status " ++ toString code))
    | .httpStatus code, r + 1 =>
      if nonRetryable code then
        ([fd], .error ("TTS request failed with status " ++ toString code))
      else
        let next := makeRequestLoop fd outcome (attempt + 1) r
        (fd :: next.1, next.2)
    | .timeout, 0 => ([fd], .error "Request timed out")
    | .timeout, r + 1 =>
      let next := makeRequestLoop fd outcome (attempt + 1) r
      (fd :: next.1, next.2)
    | .connectionError, 0 => ([fd], .error "Connection error")
    | .connectionError, r + 1 =>
      let next := makeRequestLoop fd outcome (attempt + 1) r
      (fd :: next.1, next.2)

/-- `TTSClient._make_request` / `AsyncTTSClient._make_request`: `gen` is the
single `str(uuid.uuid4())` drawn when `form_data` is built, before the retry
loop. -/
def make_request (inputText : List Char) (voice fmtValue gen : String)
    (maxRetries : Nat) (outcome : Nat → UpstreamOutcome) :
    List FormPayload × Except String (List Nat) :=
  makeRequestLoop ⟨inputText, voice, gen, fmtValue⟩ outcome 0 maxRetries

/-- What the provider does on one attempt of the queue server's
`process_tts_request` (`server/handlers.py`): 403/503/timeout/network errors
re-enter the loop (as does 429, which waits without counting), any other
non-200 status returns an error response, 200 returns the audio. -/
inductive ServerOutcome where
  | ok (body : List Nat)
  | retryAgain
  | finalStatus (code : Nat)
deriving DecidableEq

/-- The attempt loop of `process_tts_request` (`server/handlers.py` lines
199-268): before EVERY outbound call the handler executes
`task_data['data']['generation'] = str(uuid.uuid4())`, a fresh draw per
attempt; `uuids k` is the `k`-th draw.  `fuel` bounds the observation window
(the Python loop is bounded by `max_retries` increments except for 429,
which can re-enter it indefinitely).  Returns the generation tokens sent,
one per outbound call. -/
def processTtsAttempts (uuids : Nat → String) (outcome : Nat → ServerOutcome) :
    Nat → Nat → List String
  | 0, _ => []
  | fuel + 1, k =>
    uuids k ::
      match outcome k with
      | .ok _ => []
      | .finalStatus _ => []
      | .retryAgain => processTtsAttempts uuids outcome fuel (k + 1)

/-! ## Streaming delivery (`ttsfm-web/websocket_handler.py`) -/

/-- The WebSocket events of one streaming session.  All events of a session
carry the same `request_id`, omitted here; payload fields not needed by the
claims (timing, text preview) are also omitted. -/
inductive WsEvent where
  | stream_started
  | stream_progress (progress : Nat) (chunksCompleted : Option Nat)
  | audio_chunk (chunkIndex totalChunks : Nat) (audioData : List Nat)
  | stream_error (message : String)
  | stream_complete (totalChunks : Nat)
deriving DecidableEq

/-- The per-chunk loop of `WebSocketTTSHandler._generate_stream`
(`ttsfm-web/websocket_handler.py` lines 151-201) for a client that stays
connected: a successful chunk emits `audio_chunk` then `stream_progress`
with `int(((i + 1) / total_chunks) * 100)` (modelled as the integer floor
`100 * (i + 1) / total`; the Python float computation truncates to the same
monotone sequence with the same 0 and 100 endpoints); a failed chunk emits
`stream_error` and the loop continues with the next chunk. -/
def streamLoop (total : Nat) : Nat → List (Except String (List Nat)) → List WsEvent
  | _, [] => []
  | i, .ok audio :: rest =>
    .audio_chunk i total audio ::
      .stream_progress (100 * (i + 1) / total) (some (i + 1)) ::
        streamLoop total (i + 1) rest
  | i, .error e :: rest =>
    .stream_error ("Chunk " ++ toString i ++ " generation failed: " ++ e) ::
      streamLoop total (i + 1) rest

/-- `_generate_stream` after parameter validation: one initial
`stream_progress 0`, the per-chunk loop, then exactly one
`stream_complete` once every chunk has been attempted. -/
def generateStreamTrace (outcomes : List (Except String (List Nat))) : List WsEvent :=
  .stream_progress 0 none ::
    (streamLoop outcomes.length 0 outcomes ++ [.stream_complete outcomes.length])

/-- A full session as seen by the subscriber: `handle_generate_stream`
emits `stream_started` once, then runs `_generate_stream` as a background
task. -/
def sessionTrace (outcomes : List (Except String (List Nat))) : List WsEvent :=
  .stream_started :: generateStreamTrace outcomes

/-- The progress values carried by a trace, in order. -/
def progressValues (trace : List WsEvent) : List Nat :=
  trace.filterMap (fun e =>
    match e with
    | .stream_progress p _ => some p
    | _ => none)

/-- The chunk indices of the `audio_chunk` events of a trace, in order. -/
def audioIndices (trace : List WsEvent) : List Nat :=
  trace.filterMap (fun e =>
    match e with
    | .audio_chunk i _ _ => some i
    | _ => none)

def isStarted : WsEvent → Bool
  | .stream_started => true
  | _ => false

def isComplete : WsEvent → Bool
  | .stream_complete _ => true
  | _ => false

def isErrorEvent : WsEvent → Bool
  | .stream_error _ => true
  | _ => false

/-! ## Helper lemmas: non-whitespace character content -/

theorem ns_append (a b : List Char) :
    nonSpaceChars (a ++ b) = nonSpaceChars a ++ nonSpaceChars b := by
  simp [nonSpaceChars, List.filter_append]

theorem filter_notSpace_dropWhile (s : List Char) :
    (s.dropWhile pyIsSpace).filter notSpace = s.filter notSpace := by
  induction s with
  | nil => rfl
  | cons c rest ih =>
    by_cases h : pyIsSpace c
    · simp [List.dropWhile_cons, h, ih, List.filter_cons, notSpace]
    · simp [List.dropWhile_cons, h, List.filter_cons, notSpace]

theorem ns_reverse (s : List Char) :
    nonSpaceChars s.reverse = (nonSpaceChars s).reverse := by
  simp [nonSpaceChars, List.filter_reverse]

theorem ns_strip (s : List Char) : nonSpaceChars (pyStrip s) = nonSpaceChars s := by
  unfold pyStrip
  rw [ns_reverse, show ∀ t : List Char, nonSpaceChars (t.dropWhile pyIsSpace) =
      nonSpaceChars t from fun t => filter_notSpace_dropWhile t, ns_reverse]
  simp [filter_notSpace_dropWhile, nonSpaceChars]

theorem ns_of_strip_empty {s : List Char} (h : (pyStrip s).isEmpty = true) :
    nonSpaceChars s = [] := by
  rw [← ns_strip]
  rw [List.isEmpty_iff] at h
  simp [h, nonSpaceChars]

theorem ns_flatten (L : List (List Char)) :
    nonSpaceChars L.flatten = (L.map nonSpaceChars).flatten := by
  induction L with
  | nil => rfl
  | cons c rest ih => simp [List.flatten_cons, ns_append, ih]

theorem ns_joinSpace (ws : List (List Char)) :
    nonSpaceChars (joinSpace ws) = (ws.map nonSpaceChars).flatten := by
  induction ws with
  | nil => rfl
  | cons w rest ih =>
    cases rest with
    | nil => simp [joinSpace, nonSpaceChars]
    | cons x t =>
      rw [joinSpace]
      rw [show w ++ ' ' :: joinSpace (x :: t) = w ++ [' '] ++ joinSpace (x :: t) by simp]
      rw [ns_append, ns_append, ih]
      simp [nonSpaceChars, List.filter_cons, notSpace, pyIsSpace]

theorem ns_flatten_dropBlank (l : List (List Char)) :
    ((dropBlank l).map nonSpaceChars).flatten = (l.map nonSpaceChars).flatten := by
  induction l with
  | nil => rfl
  | cons c rest ih =>
    by_cases h : (pyStrip c).isEmpty
    · simp [dropBlank, List.filter_cons, h, ns_of_strip_empty h] at ih ⊢
      simpa [ns_of_strip_empty h] using ih
    · simp [dropBlank, List.filter_cons, h] at ih ⊢
      simp [ih]

/-! ## The segmenter preserves the non-whitespace character sequence -/

theorem emitStrip_ns (buf : List Char) :
    ((emitStrip buf).map nonSpaceChars).flatten = nonSpaceChars buf := by
  unfold emitStrip
  by_cases h : (pyStrip buf).isEmpty
  · simp [h, ns_of_strip_empty h]
  · simp [h, ns_strip]

theorem flushJoin_ns (cur : List (List Char)) :
    ((flushJoin cur).map nonSpaceChars).flatten = (cur.map nonSpaceChars).flatten := by
  unfold flushJoin
  by_cases h : cur.isEmpty
  · rw [List.isEmpty_iff] at h
    simp [h]
  · simp [h, ns_joinSpace]

theorem pySplitAux_ns (s : List Char) :
    ∀ cur, ((pySplitAux s cur).map nonSpaceChars).flatten = nonSpaceChars cur ++ nonSpaceChars s := by
  induction s with
  | nil =>
    intro cur
    by_cases h : cur.isEmpty
    · rw [List.isEmpty_iff] at h
      simp [pySplitAux, h, nonSpaceChars]
    · simp [pySplitAux, h, nonSpaceChars]
  | cons c rest ih =>
    intro cur
    by_cases h : pyIsSpace c
    · by_cases hc : cur.isEmpty
      · rw [List.isEmpty_iff] at hc
        simp [pySplitAux, h, hc, ih, nonSpaceChars, List.filter_cons, notSpace]
      · simp [pySplitAux, h, hc, ih, nonSpaceChars, List.filter_cons, notSpace]
    · simp [pySplitAux, h, ih, ns_append, nonSpaceChars, List.filter_cons, notSpace]

theorem pySplit_ns (s : List Char) :
    ((pySplit s).map nonSpaceChars).flatten = nonSpaceChars s := by
  simpa [nonSpaceChars] using pySplitAux_ns s []

theorem sentencesAux_ns (t : List Char) :
    ∀ buf b, ((sentencesAux t buf b).map nonSpaceChars).flatten =
      nonSpaceChars buf ++ nonSpaceChars t := by
  induction t with
  | nil =>
    intro buf b
    simp [sentencesAux, emitStrip_ns, nonSpaceChars]
  | cons c rest ih =>
    intro buf b
    by_cases h : (b && !(sentTerm c)) = true
    · simp only [sentencesAux]
      rw [if_pos h, List.map_append, List.flatten_append, emitStrip_ns, ih]
      by_cases hc : notSpace c = true <;>
        simp [nonSpaceChars, List.filter_cons, hc]
    · simp only [sentencesAux]
      rw [if_neg h, ih, ns_append]
      by_cases hc : notSpace c = true <;>
        simp [nonSpaceChars, List.filter_cons, hc]

theorem chunkEveryAux_flatten (m : Nat) (s : List Char) :
    ∀ cur k, (chunkEveryAux m s cur k).flatten = cur ++ s := by
  induction s with
  | nil =>
    intro cur k
    by_cases h : cur.isEmpty
    · rw [List.isEmpty_iff] at h
      simp [chunkEveryAux, h]
    · simp [chunkEveryAux, h]
  | cons c rest ih =>
    intro cur k
    cases k with
    | zero => simp [chunkEveryAux, ih]
    | succ k => simp [chunkEveryAux, ih]

theorem chunkEvery_flatten (m : Nat) (s : List Char) : (chunkEvery m s).flatten = s := by
  cases s with
  | nil => rfl
  | cons c rest => simp [chunkEvery, chunkEveryAux_flatten]

theorem dropBlank_chunkEvery_ns (m : Nat) (s : List Char) :
    ((dropBlank (chunkEvery m s)).map nonSpaceChars).flatten = nonSpaceChars s := by
  rw [ns_flatten_dropBlank, ← ns_flatten, chunkEvery_flatten]

theorem slsLoop_ns (m : Nat) (ws : List (List Char)) :
    ∀ cur clen, ((slsLoop m ws cur clen).map nonSpaceChars).flatten =
      (cur.map nonSpaceChars).flatten ++ (ws.map nonSpaceChars).flatten := by
  induction ws with
  | nil =>
    intro cur clen
    simp [slsLoop, flushJoin_ns]
  | cons w rest ih =>
    intro cur clen
    by_cases h1 : m < w.length
    · simp only [slsLoop]
      rw [if_pos h1, List.map_append, List.flatten_append, List.map_append,
        List.flatten_append, flushJoin_ns, dropBlank_chunkEvery_ns, ih]
      simp
    · by_cases h2 : clen + w.length + (if cur.isEmpty then 0 else 1) ≤ m
      · simp only [slsLoop]
        rw [if_neg h1, if_pos h2, ih]
        simp
      · simp only [slsLoop]
        rw [if_neg h1, if_neg h2, List.map_append, List.flatten_append, flushJoin_ns, ih]
        simp

theorem split_long_segment_body_ns (m : Nat) (seg : List Char) :
    ((split_long_segment_body m seg).map nonSpaceChars).flatten = nonSpaceChars seg := by
  unfold split_long_segment_body
  by_cases h1 : seg.length ≤ m
  · simp [h1]
  · by_cases h2 : (pySplit seg).isEmpty = true
    · rw [if_neg h1, if_pos h2, dropBlank_chunkEvery_ns]
    · rw [if_neg h1, if_neg h2, slsLoop_ns, pySplit_ns]
      simp

theorem stblLoop_ns (m : Nat) (ss : List (List Char)) :
    ∀ cur clen, ((stblLoop m ss cur clen).map nonSpaceChars).flatten =
      (cur.map nonSpaceChars).flatten ++ (ss.map nonSpaceChars).flatten := by
  induction ss with
  | nil =>
    intro cur clen
    simp [stblLoop, flushJoin_ns]
  | cons s rest ih =>
    intro cur clen
    by_cases h0 : s.isEmpty = true
    · simp only [stblLoop]
      rw [if_pos h0, ih]
      rw [List.isEmpty_iff] at h0
      simp [h0, nonSpaceChars]
    · by_cases h1 : clen + (if cur.isEmpty then 0 else 1) + s.length ≤ m
      · simp only [stblLoop]
        rw [if_neg h0, if_pos h1, ih]
        simp
      · by_cases h2 : m < s.length
        · simp only [stblLoop]
          rw [if_neg h0, if_neg h1, if_pos h2, List.map_append, List.flatten_append,
            flushJoin_ns, List.map_append, List.flatten_append,
            split_long_segment_body_ns, ih]
          simp
        · simp only [stblLoop]
          rw [if_neg h0, if_neg h1, if_neg h2, List.map_append, List.flatten_append,
            flushJoin_ns, ih]
          simp

theorem split_text_by_length_ns (t : List Char) (M : Int) (p : Bool) :
    nonSpaceChars (joinSpace (split_text_by_length t M p)) = nonSpaceChars t := by
  unfold split_text_by_length
  by_cases h0 : t.isEmpty
  · rw [List.isEmpty_iff] at h0
    simp [h0, joinSpace]
  · by_cases h1 : t.length ≤ clampLimit M
    · simp [h0, h1, joinSpace]
    · simp only [h0, h1, Bool.false_eq_true, if_neg, if_pos, not_false_iff]
      cases p with
      | true =>
        rw [ns_joinSpace, ns_flatten_dropBlank]
        simp only [if_pos]
        rw [stblLoop_ns]
        unfold split_into_sentences
        rw [sentencesAux_ns]
        simp [nonSpaceChars]
      | false =>
        rw [ns_joinSpace]
        simp only [Bool.false_eq_true, if_neg, not_false_iff]
        rw [ns_flatten_dropBlank, ← ns_flatten, ns_flatten, ns_flatten_dropBlank,
          ← ns_flatten, chunkEvery_flatten]

/-! ## The segmenter never emits a chunk longer than the clamped limit -/

theorem clampLimit_pos (M : Int) : 1 ≤ clampLimit M := by
  simp only [clampLimit]
  omega

theorem clampLimit_le_1000 (M : Int) : clampLimit M ≤ 1000 := by
  simp only [clampLimit]
  omega

theorem clampLimit_le_of_one_le {M : Int} (h : 1 ≤ M) : (clampLimit M : Int) ≤ M := by
  simp only [clampLimit]
  omega

theorem joinSpace_snoc (cur : List (List Char)) (w : List Char) :
    joinSpace (cur ++ [w]) = if cur.isEmpty then w else joinSpace cur ++ ' ' :: w := by
  induction cur with
  | nil => simp [joinSpace]
  | cons x t ih =>
    cases t with
    | nil => simp [joinSpace]
    | cons y t2 =>
      have ih2 : joinSpace ((y :: t2) ++ [w]) = joinSpace (y :: t2) ++ ' ' :: w := by
        rw [ih]
        simp
      calc joinSpace ((x :: y :: t2) ++ [w])
          = x ++ ' ' :: joinSpace ((y :: t2) ++ [w]) := by simp [joinSpace]
        _ = x ++ ' ' :: (joinSpace (y :: t2) ++ ' ' :: w) := by rw [ih2]
        _ = if (x :: y :: t2).isEmpty then w else joinSpace (x :: y :: t2) ++ ' ' :: w := by
            simp [joinSpace]

theorem length_joinSpace_snoc (cur : List (List Char)) (w : List Char) :
    (joinSpace (cur ++ [w])).length =
      (if cur.isEmpty then 0 else (joinSpace cur).length + 1) + w.length := by
  rw [joinSpace_snoc]
  by_cases h : cur.isEmpty
  · simp [h]
  · simp [h]
    omega

theorem chunkEveryAux_bound (m : Nat) (hm : 1 ≤ m) (s : List Char) :
    ∀ cur k, cur.length + k = m →
      ∀ c ∈ chunkEveryAux m s cur k, c.length ≤ m := by
  induction s with
  | nil =>
    intro cur k hinv c hc
    by_cases h : cur.isEmpty
    · simp [chunkEveryAux, h] at hc
    · simp [chunkEveryAux, h] at hc
      subst hc
      omega
  | cons a rest ih =>
    intro cur k hinv c hc
    cases k with
    | zero =>
      simp only [chunkEveryAux, List.mem_cons] at hc
      rcases hc with rfl | hc
      · omega
      · exact ih [a] (m - 1) (by simp; omega) c hc
    | succ k =>
      simp only [chunkEveryAux] at hc
      exact ih (cur ++ [a]) k (by simp; omega) c hc

theorem chunkEvery_bound (m : Nat) (hm : 1 ≤ m) (s : List Char) :
    ∀ c ∈ chunkEvery m s, c.length ≤ m := by
  cases s with
  | nil => intro c hc; simp [chunkEvery] at hc
  | cons a rest =>
    intro c hc
    exact chunkEveryAux_bound m hm rest [a] (m - 1) (by simp; omega) c hc

theorem mem_dropBlank {c : List Char} {l : List (List Char)} (h : c ∈ dropBlank l) :
    c ∈ l :=
  List.mem_of_mem_filter h

theorem slsLoop_bound (m : Nat) (hm : 1 ≤ m) (ws : List (List Char)) :
    ∀ cur clen, (joinSpace cur).length = clen → (cur.isEmpty = true → clen = 0) →
      clen ≤ m → ∀ c ∈ slsLoop m ws cur clen, c.length ≤ m := by
  induction ws with
  | nil =>
    intro cur clen hlen hemp hle c hc
    simp only [slsLoop, flushJoin] at hc
    by_cases h : cur.isEmpty
    · simp [h] at hc
    · simp [h] at hc
      subst hc
      omega
  | cons w rest ih =>
    intro cur clen hlen hemp hle c hc
    by_cases h1 : m < w.length
    · simp only [slsLoop] at hc
      rw [if_pos h1] at hc
      rcases List.mem_append.mp hc with hc' | hc2
      · rcases List.mem_append.mp hc' with hf | hch
        · simp only [flushJoin] at hf
          by_cases h : cur.isEmpty
          · simp [h] at hf
          · simp [h] at hf
            subst hf
            omega
        · exact chunkEvery_bound m hm w c (mem_dropBlank hch)
      · exact ih [] 0 (by simp [joinSpace]) (by simp) (by omega) c hc2
    · by_cases h2 : clen + w.length + (if cur.isEmpty then 0 else 1) ≤ m
      · simp only [slsLoop] at hc
        rw [if_neg h1, if_pos h2] at hc
        refine ih (cur ++ [w]) _ ?_ (by simp) h2 c hc
        rw [length_joinSpace_snoc]
        by_cases h : cur.isEmpty
        · simp [h, hemp h]
        · (simp [h, hlen]; omega)
      · simp only [slsLoop] at hc
        rw [if_neg h1, if_neg h2] at hc
        rcases List.mem_append.mp hc with hf | hc2
        · simp only [flushJoin] at hf
          by_cases h : cur.isEmpty
          · simp [h] at hf
          · simp [h] at hf
            subst hf
            omega
        · exact ih [w] w.length (by simp [joinSpace]) (by simp) (by omega) c hc2

theorem split_long_segment_body_bound (m : Nat) (hm : 1 ≤ m) (seg : List Char) :
    ∀ c ∈ split_long_segment_body m seg, c.length ≤ m := by
  intro c hc
  unfold split_long_segment_body at hc
  by_cases h1 : seg.length ≤ m
  · simp [h1] at hc
    subst hc
    exact h1
  · rw [if_neg h1] at hc
    by_cases h2 : (pySplit seg).isEmpty = true
    · rw [if_pos h2] at hc
      exact chunkEvery_bound m hm seg c (mem_dropBlank hc)
    · rw [if_neg h2] at hc
      exact slsLoop_bound m hm (pySplit seg) [] 0 (by simp [joinSpace]) (by simp)
        (by omega) c hc

theorem stblLoop_bound (m : Nat) (hm : 1 ≤ m) (hm2 : m ≤ 1000) (ss : List (List Char)) :
    ∀ cur clen, (joinSpace cur).length = clen → (cur.isEmpty = true → clen = 0) →
      clen ≤ m → ∀ c ∈ stblLoop m ss cur clen, c.length ≤ m := by
  induction ss with
  | nil =>
    intro cur clen hlen hemp hle c hc
    simp only [stblLoop, flushJoin] at hc
    by_cases h : cur.isEmpty
    · simp [h] at hc
    · simp [h] at hc
      subst hc
      omega
  | cons s rest ih =>
    intro cur clen hlen hemp hle c hc
    by_cases h0 : s.isEmpty = true
    · simp only [stblLoop] at hc
      rw [if_pos h0] at hc
      exact ih cur clen hlen hemp hle c hc
    · by_cases h1 : clen + (if cur.isEmpty then 0 else 1) + s.length ≤ m
      · simp only [stblLoop] at hc
        rw [if_neg h0, if_pos h1] at hc
        refine ih (cur ++ [s]) _ ?_ (by simp) h1 c hc
        rw [length_joinSpace_snoc]
        by_cases h : cur.isEmpty
        · simp [h, hemp h]
        · simp [h, hlen]
      · simp only [stblLoop] at hc
        rw [if_neg h0, if_neg h1] at hc
        rcases List.mem_append.mp hc with hf | hc2
        · simp only [flushJoin] at hf
          by_cases h : cur.isEmpty
          · simp [h] at hf
          · simp [h] at hf
            subst hf
            omega
        · by_cases h2 : m < s.length
          · rw [if_pos h2] at hc2
            rcases List.mem_append.mp hc2 with hb | hc3
            · have hmm : max 1 (min m 1000) = m := by omega
              rw [hmm] at hb
              exact split_long_segment_body_bound m hm s c hb
            · exact ih [] 0 (by simp [joinSpace]) (by simp) (by omega) c hc3
          · rw [if_neg h2] at hc2
            exact ih [s] s.length (by simp [joinSpace]) (by simp) (by omega) c hc2

theorem split_text_by_length_bound (t : List Char) (M : Int) (p : Bool) :
    ∀ c ∈ split_text_by_length t M p, c.length ≤ clampLimit M := by
  intro c hc
  unfold split_text_by_length at hc
  by_cases h0 : t.isEmpty = true
  · simp [h0] at hc
  · rw [if_neg h0] at hc
    by_cases h1 : t.length ≤ clampLimit M
    · simp only [if_pos h1, List.mem_singleton] at hc
      subst hc
      exact h1
    · simp only [if_neg h1] at hc
      have hc' := mem_dropBlank hc
      cases p with
      | true =>
        simp only [if_pos] at hc'
        exact stblLoop_bound (clampLimit M) (clampLimit_pos M) (clampLimit_le_1000 M)
          (split_into_sentences t) [] 0 (by simp [joinSpace]) (by simp) (by omega) c hc'
      | false =>
        simp only [Bool.false_eq_true, if_neg, not_false_iff] at hc'
        exact chunkEvery_bound (clampLimit M) (clampLimit_pos M) t c (mem_dropBlank hc')

/-! ## Claim C3 -/

/-- C3, counterexample.  The claim asserts for EVERY `maxLength ≥ 1` and BOTH
values of `preserveWords` that every chunk fits AND that joining the chunks
with single spaces reproduces the original words in order.  At
`text = "abcd"`, `maxLength = 3`, `preserveWords = false` the code splits at
character boundaries into `"abc"`/`"d"`, so the word-level round trip fails:
the rejoined words are `["abc", "d"]`, not `["abcd"]`. -/
theorem C3_counterexample :
    ¬ ((∀ c ∈ split_text_by_length ['a', 'b', 'c', 'd'] 3 false, (c.length : Int) ≤ 3) ∧
      pySplit (joinSpace (split_text_by_length ['a', 'b', 'c', 'd'] 3 false)) =
        pySplit ['a', 'b', 'c', 'd']) := by
  decide

/-- C3, amended.  For every text, every `maxLength ≥ 1` and both values of
`preserveWords`: every returned chunk has length at most `maxLength`, and
joining the chunks with single spaces preserves the original sequence of
non-whitespace characters (the word-level round trip fails whenever a word
is force-split or a sentence terminator sits inside a word, so the
whitespace-insensitive round trip holds at the character level, not the
word level). -/
theorem C3_chunk_bound_and_char_roundtrip (t : List Char) (M : Int) (p : Bool)
    (hM : 1 ≤ M) :
    (∀ c ∈ split_text_by_length t M p, (c.length : Int) ≤ M) ∧
      nonSpaceChars (joinSpace (split_text_by_length t M p)) = nonSpaceChars t := by
  constructor
  · intro c hc
    have h1 := split_text_by_length_bound t M p c hc
    have h2 := clampLimit_le_of_one_le hM
    omega
  · exact split_text_by_length_ns t M p

/-- C3, witness at `text = "hi you"`, `maxLength = 3`,
`preserveWords = true`. -/
theorem C3_witness :
    (1 : Int) ≤ 3 ∧
      ((∀ c ∈ split_text_by_length ['h', 'i', ' ', 'y', 'o', 'u'] 3 true,
          (c.length : Int) ≤ 3) ∧
        nonSpaceChars (joinSpace (split_text_by_length ['h', 'i', ' ', 'y', 'o', 'u'] 3 true)) =
          nonSpaceChars ['h', 'i', ' ', 'y', 'o', 'u']) :=
  ⟨by decide, C3_chunk_bound_and_char_roundtrip ['h', 'i', ' ', 'y', 'o', 'u'] 3 true (by decide)⟩

/-! ## Claim C5 -/

/-- C5, counterexample.  The claim quantifies over EVERY text with
`len(text) ≤ maxLength`; at `text = ""`, `maxLength = 5` the code returns
`[]` (the `if not text` guard), not the one-element list `[""]`. -/
theorem C5_counterexample :
    ((([] : List Char).length : Int) ≤ 5) ∧
      ¬ (split_text_by_length [] 5 true = [([] : List Char)]) := by
  constructor
  · decide
  · decide

/-- C5, amended.  For every NON-empty text whose length is at most
`maxLength` AND at most 1000 (the limit is silently clamped to 1000, so a
text of length 1001 with `maxLength = 1001` is split, not returned whole),
`split_text_by_length` returns exactly `[text]`, for both values of
`preserveWords`. -/
theorem C5_short_text_single_chunk (t : List Char) (M : Int) (p : Bool)
    (hne : t ≠ []) (h1 : (t.length : Int) ≤ M) (h2 : t.length ≤ 1000) :
    split_text_by_length t M p = [t] := by
  have hlen : 1 ≤ t.length := List.length_pos.mpr hne
  unfold split_text_by_length
  have hempty : ¬ (t.isEmpty = true) := by
    simpa [List.isEmpty_iff] using hne
  rw [if_neg hempty]
  have hle : t.length ≤ clampLimit M := by
    simp only [clampLimit]
    omega
  simp only [if_pos hle]

/-- C5, witness at `text = "ab"`, `maxLength = 5`. -/
theorem C5_witness :
    (['a', 'b'] ≠ ([] : List Char)) ∧ (((['a', 'b'] : List Char).length : Int) ≤ 5) ∧
      ((['a', 'b'] : List Char).length ≤ 1000) ∧
      split_text_by_length ['a', 'b'] 5 true = [['a', 'b']] :=
  ⟨by decide, by decide, by decide,
    C5_short_text_single_chunk ['a', 'b'] 5 true (by decide) (by decide) (by decide)⟩

/-! ## Claim C6 -/

/-- C6: `split_text_by_length` clamps the requested limit into `[1, 1000]`
before any splitting: for `maxLength > 1000` the result is the same as with
`maxLength = 1000`, for `maxLength < 1` the same as with `maxLength = 1`,
and no returned chunk ever exceeds 1000 characters. -/
theorem C6_limit_clamped (t : List Char) (M : Int) (p : Bool) :
    (1000 < M → split_text_by_length t M p = split_text_by_length t 1000 p) ∧
      (M < 1 → split_text_by_length t M p = split_text_by_length t 1 p) ∧
      ∀ c ∈ split_text_by_length t M p, c.length ≤ 1000 := by
  refine ⟨?_, ?_, ?_⟩
  · intro h
    have hcl : clampLimit M = clampLimit 1000 := by
      simp only [clampLimit]
      omega
    unfold split_text_by_length
    rw [hcl]
  · intro h
    have hcl : clampLimit M = clampLimit 1 := by
      simp only [clampLimit]
      omega
    unfold split_text_by_length
    rw [hcl]
  · intro c hc
    exact le_trans (split_text_by_length_bound t M p c hc) (clampLimit_le_1000 M)

/-- C6, witness at `maxLength = 2000` and `maxLength = -3`. -/
theorem C6_witness :
    ((1000 : Int) < 2000 ∧
      split_text_by_length ['a'] 2000 true = split_text_by_length ['a'] 1000 true) ∧
      ((-3 : Int) < 1 ∧
        split_text_by_length ['a'] (-3) true = split_text_by_length ['a'] 1 true) ∧
      ∀ c ∈ split_text_by_length ['a'] 2000 true, c.length ≤ 1000 :=
  ⟨⟨by decide, (C6_limit_clamped ['a'] 2000 true).1 (by decide)⟩,
    ⟨by decide, (C6_limit_clamped ['a'] (-3) true).2.1 (by decide)⟩,
    (C6_limit_clamped ['a'] 2000 true).2.2⟩

/-! ## Claim C2 -/

/-- A pydub instance whose decoder raises (e.g. `CouldntDecodeError` on a
malformed chunk). -/
def failingLib : AudioLib (List Nat) where
  from_mp3 := fun _ => Except.error "CouldntDecodeError"
  from_wav := fun _ => Except.error "CouldntDecodeError"
  add := fun a b => a ++ b
  exportAudio := fun s _ => Except.ok s

/-- C2, counterexample.  With pydub present and a chunk its decoder rejects,
`combine_audio_chunks` propagates the decode failure instead of returning
the raw concatenation `[0] ++ [1]`: the preferred path has no `try` in
`ttsfm/audio.py` (only `_simple_wav_concatenation`'s internal body does). -/
theorem C2_counterexample :
    combine_audio_chunks (some failingLib) [[0], [1]] "mp3" =
        Except.error "CouldntDecodeError" ∧
      (Except.error "CouldntDecodeError" : Except String (List Nat)) ≠
        Except.ok ([0] ++ [1]) := by
  constructor
  · decide
  · decide

theorem mapM_decode_error {σ : Type} (f : List Nat → Except String σ) :
    ∀ l : List (List Nat), (∃ c ∈ l, ∃ e, f c = Except.error e) →
      ∃ e, l.mapM f = Except.error e := by
  intro l
  induction l with
  | nil =>
    intro h
    obtain ⟨c, hc, _⟩ := h
    simp at hc
  | cons a t ih =>
    intro h
    cases hfa : f a with
    | error e =>
      refine ⟨e, ?_⟩
      rw [List.mapM_cons, hfa]
      rfl
    | ok s =>
      obtain ⟨c, hc, e, he⟩ := h
      have hct : c ∈ t := by
        rcases List.mem_cons.mp hc with rfl | h2
        · rw [hfa] at he
          cases he
        · exact h2
      obtain ⟨e2, he2⟩ := ih ⟨c, hct, e, he⟩
      refine ⟨e2, ?_⟩
      rw [List.mapM_cons, hfa]
      show (List.cons s <$> t.mapM f) = Except.error e2
      rw [he2]
      rfl

theorem combine_first_decode_error {σ : Type} (L : AudioLib σ) (fmt : String)
    (c0 : List Nat) (rest : List (List Nat)) (e : String)
    (h : (if pyLower fmt = "mp3" then L.from_mp3 c0 else L.from_wav c0) =
      Except.error e) :
    combine_audio_chunks (some L) (c0 :: rest) fmt = Except.error e := by
  simp only [combine_audio_chunks]
  by_cases hf : pyLower fmt = "mp3"
  · rw [if_pos hf] at h ⊢
    rw [h]
    rfl
  · rw [if_neg hf] at h ⊢
    rw [h]
    rfl

theorem combine_decode_error_any {σ : Type} (L : AudioLib σ) (fmt : String) :
    ∀ chunks : List (List Nat),
      (∃ c ∈ chunks, ∃ e,
        (if pyLower fmt = "mp3" then L.from_mp3 c else L.from_wav c) = Except.error e) →
      ∃ e, combine_audio_chunks (some L) chunks fmt = Except.error e := by
  intro chunks hex
  cases chunks with
  | nil =>
    obtain ⟨c, hc, _⟩ := hex
    simp at hc
  | cons c0 rest =>
    cases hd : (if pyLower fmt = "mp3" then L.from_mp3 c0 else L.from_wav c0) with
    | error e => exact ⟨e, combine_first_decode_error L fmt c0 rest e hd⟩
    | ok s0 =>
      obtain ⟨c, hc, e, he⟩ := hex
      have hct : c ∈ rest := by
        rcases List.mem_cons.mp hc with rfl | h2
        · rw [hd] at he
          cases he
        · exact h2
      obtain ⟨e2, he2⟩ := mapM_decode_error
        (fun c => if pyLower fmt = "mp3" then L.from_mp3 c else L.from_wav c) rest
        ⟨c, hct, e, he⟩
      refine ⟨e2, ?_⟩
      simp only [combine_audio_chunks]
      by_cases hf : pyLower fmt = "mp3"
      · rw [if_pos hf] at hd ⊢
        rw [hd]
        show (rest.mapM
            (fun c => if pyLower fmt = "mp3" then L.from_mp3 c else L.from_wav c) >>=
          fun ss2 => L.exportAudio (ss2.foldl L.add s0)
            (if pyLower fmt = "mp3" then "mp3" else "wav")) = Except.error e2
        rw [he2]
        rfl
      · rw [if_neg hf] at hd ⊢
        rw [hd]
        show (rest.mapM
            (fun c => if pyLower fmt = "mp3" then L.from_mp3 c else L.from_wav c) >>=
          fun ss2 => L.exportAudio (ss2.foldl L.add s0)
            (if pyLower fmt = "mp3" then "mp3" else "wav")) = Except.error e2
        rw [he2]
        rfl

theorem combine_export_error {σ : Type} (L : AudioLib σ) (fmt : String) (c0 : List Nat)
    (rest : List (List Nat)) (s0 : σ) (ss : List σ) (e : String)
    (h1 : (if pyLower fmt = "mp3" then L.from_mp3 c0 else L.from_wav c0) = Except.ok s0)
    (h2 : rest.mapM (fun c => if pyLower fmt = "mp3" then L.from_mp3 c else L.from_wav c) =
      Except.ok ss)
    (h3 : L.exportAudio (ss.foldl L.add s0) (if pyLower fmt = "mp3" then "mp3" else "wav") =
      Except.error e) :
    combine_audio_chunks (some L) (c0 :: rest) fmt = Except.error e := by
  simp only [combine_audio_chunks]
  by_cases hf : pyLower fmt = "mp3"
  · rw [if_pos hf] at h1 ⊢
    rw [h1]
    show (rest.mapM
        (fun c => if pyLower fmt = "mp3" then L.from_mp3 c else L.from_wav c) >>=
      fun ss2 => L.exportAudio (ss2.foldl L.add s0)
        (if pyLower fmt = "mp3" then "mp3" else "wav")) = Except.error e
    rw [h2]
    show L.exportAudio (ss.foldl L.add s0) (if pyLower fmt = "mp3" then "mp3" else "wav") =
      Except.error e
    exact h3
  · rw [if_neg hf] at h1 ⊢
    rw [h1]
    show (rest.mapM
        (fun c => if pyLower fmt = "mp3" then L.from_mp3 c else L.from_wav c) >>=
      fun ss2 => L.exportAudio (ss2.foldl L.add s0)
        (if pyLower fmt = "mp3" then "mp3" else "wav")) = Except.error e
    rw [h2]
    show L.exportAudio (ss.foldl L.add s0) (if pyLower fmt = "mp3" then "mp3" else "wav") =
      Except.error e
    exact h3

/-- C2, amended.  Failures anywhere on the codec-aware (pydub) path
propagate to the caller of `combine_audio_chunks` (there is no `try` around
`ttsfm/audio.py` lines 48-64): a decode failure of the first chunk
propagates verbatim, a decode failure of ANY chunk makes the call raise, and
a re-encode (`export`) failure propagates verbatim even when every chunk
decoded.  Only `_simple_wav_concatenation`'s internal body catches and
degrades to raw concatenation, and that fallback path (no pydub, non-MP3
format) never raises; no pydub plus MP3 raises `RuntimeError`. -/
theorem C2_codec_path_errors_propagate {σ : Type} (L : AudioLib σ) (fmt : String) :
    (∀ (c0 : List Nat) (rest : List (List Nat)) (e : String),
        (if pyLower fmt = "mp3" then L.from_mp3 c0 else L.from_wav c0) =
          Except.error e →
        combine_audio_chunks (some L) (c0 :: rest) fmt = Except.error e) ∧
      (∀ chunks : List (List Nat),
        (∃ c ∈ chunks, ∃ e,
          (if pyLower fmt = "mp3" then L.from_mp3 c else L.from_wav c) =
            Except.error e) →
        ∃ e, combine_audio_chunks (some L) chunks fmt = Except.error e) ∧
      (∀ (c0 : List Nat) (rest : List (List Nat)) (s0 : σ) (ss : List σ) (e : String),
        (if pyLower fmt = "mp3" then L.from_mp3 c0 else L.from_wav c0) = Except.ok s0 →
        rest.mapM (fun c => if pyLower fmt = "mp3" then L.from_mp3 c else L.from_wav c) =
          Except.ok ss →
        L.exportAudio (ss.foldl L.add s0)
            (if pyLower fmt = "mp3" then "mp3" else "wav") = Except.error e →
        combine_audio_chunks (some L) (c0 :: rest) fmt = Except.error e) ∧
      (∀ (chunks : List (List Nat)) (fmt2 : String), pyLower fmt2 ≠ "mp3" →
        combine_audio_chunks (none : Option (AudioLib σ)) chunks fmt2 =
          Except.ok (simple_wav_concatenation chunks)) ∧
      (∀ (chunks0 : List Nat) (chunksRest : List (List Nat)),
        combine_audio_chunks (none : Option (AudioLib σ)) (chunks0 :: chunksRest) "mp3" =
          Except.error "Combining MP3 audio requires pydub. Install ttsfm[web].") := by
  refine ⟨?_, ?_, ?_, ?_, ?_⟩
  · intro c0 rest e h
    exact combine_first_decode_error L fmt c0 rest e h
  · intro chunks hex
    exact combine_decode_error_any L fmt chunks hex
  · intro c0 rest s0 ss e h1 h2 h3
    exact combine_export_error L fmt c0 rest s0 ss e h1 h2 h3
  · intro chunks fmt2 hfmt
    cases chunks with
    | nil => simp [combine_audio_chunks, simple_wav_concatenation]
    | cons a rest2 => simp [combine_audio_chunks, hfmt]
  · intro chunks0 chunksRest
    rfl

/-- A pydub instance whose decoders succeed but whose `export` raises
(e.g. `CouldntEncodeError` when the encoder backend is missing). -/
def exportFailLib : AudioLib Nat where
  from_mp3 := fun _ => Except.ok 0
  from_wav := fun _ => Except.ok 0
  add := fun a _ => a
  exportAudio := fun _ _ => Except.error "CouldntEncodeError"

/-- C2, witness: a first-chunk decode failure of `[2]`, a second-chunk
decode failure inside `[[4], [5]]`, an export failure on `[[6], [7]]`, the
WAV fallback on `[[2], [3]]`, and the no-pydub MP3 error. -/
theorem C2_witness :
    ((if pyLower "mp3" = "mp3" then failingLib.from_mp3 [2] else failingLib.from_wav [2]) =
        Except.error "CouldntDecodeError") ∧
      combine_audio_chunks (some failingLib) [[2], [3]] "mp3" =
        Except.error "CouldntDecodeError" ∧
      (∃ c ∈ [[4], [5]], ∃ e,
        (if pyLower "mp3" = "mp3" then failingLib.from_mp3 c else failingLib.from_wav c) =
          Except.error e) ∧
      (∃ e, combine_audio_chunks (some failingLib) [[4], [5]] "mp3" = Except.error e) ∧
      ((if pyLower "wav" = "mp3" then exportFailLib.from_mp3 [6]
          else exportFailLib.from_wav [6]) = Except.ok 0) ∧
      ([[7]].mapM (fun c => if pyLower "wav" = "mp3" then exportFailLib.from_mp3 c
          else exportFailLib.from_wav c) = Except.ok [0]) ∧
      (exportFailLib.exportAudio (([0] : List Nat).foldl exportFailLib.add 0)
          (if pyLower "wav" = "mp3" then "mp3" else "wav") =
        Except.error "CouldntEncodeError") ∧
      combine_audio_chunks (some exportFailLib) [[6], [7]] "wav" =
        Except.error "CouldntEncodeError" ∧
      (pyLower "wav" ≠ "mp3") ∧
      combine_audio_chunks (none : Option (AudioLib Nat)) [[2], [3]] "wav" =
        Except.ok (simple_wav_concatenation [[2], [3]]) ∧
      combine_audio_chunks (none : Option (AudioLib Nat)) [[2], [3]] "mp3" =
        Except.error "Combining MP3 audio requires pydub. Install ttsfm[web]." :=
  ⟨by decide,
    (C2_codec_path_errors_propagate failingLib "mp3").1 [2] [[3]] "CouldntDecodeError"
      (by decide),
    ⟨[4], by decide, "CouldntDecodeError", by decide⟩,
    (C2_codec_path_errors_propagate failingLib "mp3").2.1 [[4], [5]]
      ⟨[4], by decide, "CouldntDecodeError", by decide⟩,
    by decide,
    by decide,
    by decide,
    (C2_codec_path_errors_propagate exportFailLib "wav").2.2.1 [6] [[7]] 0 [0]
      "CouldntEncodeError" (by decide) (by decide) (by decide),
    by decide,
    (C2_codec_path_errors_propagate exportFailLib "wav").2.2.2.1 [[2], [3]] "wav"
      (by decide),
    (C2_codec_path_errors_propagate exportFailLib "mp3").2.2.2.2 [2] [[3]]⟩

/-! ## Claim C7 -/

/-- A pydub instance whose decode/re-encode cycle does not reproduce the
input bytes (as with any real codec round trip). -/
def reencodingLib : AudioLib Nat where
  from_mp3 := fun _ => Except.ok 0
  from_wav := fun _ => Except.ok 0
  add := fun a _ => a
  exportAudio := fun _ _ => Except.ok [9, 9]

/-- C7, counterexample.  With pydub available a SINGLE chunk is still
decoded and re-exported (`ttsfm/audio.py` lines 48-64 run for any non-empty
chunk list), so its bytes are not returned unchanged: here the re-encoded
output `[9, 9]` differs from the input `[1, 2, 3]`. -/
theorem C7_counterexample :
    combine_audio_chunks (some reencodingLib) [[1, 2, 3]] "wav" = Except.ok [9, 9] ∧
      (Except.ok [9, 9] : Except String (List Nat)) ≠ Except.ok [1, 2, 3] := by
  constructor
  · decide
  · decide

/-- C7, amended.  Zero chunks yield the empty buffer for every format and
library state; a single chunk is returned unchanged only on the
codec-library-free path with a non-MP3 format — with pydub present even a
single chunk is decoded and re-encoded, and without pydub an MP3 request
raises. -/
theorem C7_empty_and_single (fmt : String) (c : List Nat) (hfmt : pyLower fmt ≠ "mp3") :
    (∀ (σ : Type) (lib : Option (AudioLib σ)),
        combine_audio_chunks lib [] fmt = Except.ok []) ∧
      combine_audio_chunks (none : Option (AudioLib Nat)) [c] fmt = Except.ok c := by
  constructor
  · intro σ lib
    rfl
  · simp [combine_audio_chunks, hfmt, simple_wav_concatenation]

/-- C7, witness at `fmt = "wav"`, single chunk `[5, 6]`. -/
theorem C7_witness :
    (pyLower "wav" ≠ "mp3") ∧
      ((∀ (σ : Type) (lib : Option (AudioLib σ)),
          combine_audio_chunks lib [] "wav" = Except.ok []) ∧
        combine_audio_chunks (none : Option (AudioLib Nat)) [[5, 6]] "wav" =
          Except.ok [5, 6]) :=
  ⟨by decide, C7_empty_and_single "wav" [5, 6] (by decide)⟩

/-! ## Claim C8 -/

theorem to_bytes_le4_eq {n : Nat} (h : n < 4294967296) :
    to_bytes_le4 n = some [n % 256, n / 256 % 256, n / 65536 % 256, n / 16777216 % 256] := by
  simp [to_bytes_le4, h]

theorem fromLe4_to_bytes {n : Nat} (h : n < 4294967296) :
    fromLe4 [n % 256, n / 256 % 256, n / 65536 % 256, n / 16777216 % 256] = n := by
  simp only [fromLe4]
  omega

theorem drop_len_append {α : Type} (pre post : List α) :
    (pre ++ post).drop pre.length = post := by
  induction pre with
  | nil => simp
  | cons a t ih => simp [ih]

theorem take_len_prefix {α : Type} (pre post : List α) :
    (pre ++ post).take pre.length = pre := by
  induction pre with
  | nil => simp
  | cons a t ih => simp [ih]

theorem field_extract {α : Type} (pre mid2 post : List α) (n : Nat)
    (hpre : pre.length = n) (hmid : mid2.length = 4) :
    ((pre ++ (mid2 ++ post)).drop n).take 4 = mid2 := by
  rw [← hpre, drop_len_append, ← hmid, take_len_prefix]

/-- C8, amended.  For two chunks of length at least 44 combined on the
codec-library-free path, the rewritten overall-size field (bytes 4..8) holds
the payload sum PLUS 36 (the 44-byte header minus the 8 bytes not counted by
RIFF), the data-size field (bytes 40..44) holds the payload sum itself, and
the whole buffer is `payloads + 44` bytes long — the claim's
`payloads + 44` value is the buffer length, not the value of either size
field. -/
theorem C8_wav_size_fields (c1 c2 : List Nat) (h1 : 44 ≤ c1.length)
    (h2 : 44 ≤ c2.length)
    (hov : c1.length - 44 + (c2.length - 44) + 36 < 4294967296) :
    fromLe4 (((simple_wav_concatenation [c1, c2]).drop 4).take 4) =
        c1.length - 44 + (c2.length - 44) + 36 ∧
      fromLe4 (((simple_wav_concatenation [c1, c2]).drop 40).take 4) =
        c1.length - 44 + (c2.length - 44) ∧
      (simple_wav_concatenation [c1, c2]).length =
        c1.length - 44 + (c2.length - 44) + 44 := by
  have hlt : ¬ (c1.length < 44) := by omega
  have haudio :
      ((if 44 < c2.length then c1.drop 44 ++ c2.drop 44 else c1.drop 44) : List Nat).length =
        c1.length - 44 + (c2.length - 44) := by
    by_cases h : 44 < c2.length
    · simp [h, List.length_drop]
    · simp [h, List.length_drop]
      omega
  have hhead : (c1.take 44).length = 44 := by
    simp [List.length_take]
    omega
  have hout : simple_wav_concatenation [c1, c2] =
      (c1.take 44).take 4 ++
        ([(c1.length - 44 + (c2.length - 44) + 36) % 256,
            (c1.length - 44 + (c2.length - 44) + 36) / 256 % 256,
            (c1.length - 44 + (c2.length - 44) + 36) / 65536 % 256,
            (c1.length - 44 + (c2.length - 44) + 36) / 16777216 % 256] ++
          (((c1.take 44).drop 8).take 32 ++
            ([(c1.length - 44 + (c2.length - 44)) % 256,
                (c1.length - 44 + (c2.length - 44)) / 256 % 256,
                (c1.length - 44 + (c2.length - 44)) / 65536 % 256,
                (c1.length - 44 + (c2.length - 44)) / 16777216 % 256] ++
              (if 44 < c2.length then c1.drop 44 ++ c2.drop 44 else c1.drop 44)))) := by
    simp only [simple_wav_concatenation, List.foldl_cons, List.foldl_nil]
    rw [if_neg hlt]
    have htotal : (c1.take 44).length +
        ((if 44 < c2.length then c1.drop 44 ++ c2.drop 44 else c1.drop 44) : List Nat).length
          - 8 = c1.length - 44 + (c2.length - 44) + 36 := by
      rw [hhead, haudio]
      omega
    rw [htotal, to_bytes_le4_eq hov, haudio, to_bytes_le4_eq (by omega)]
    simp [List.append_assoc]
  have hpre4 : ((c1.take 44).take 4).length = 4 := by
    simp [List.length_take]
    omega
  have hmid : (((c1.take 44).drop 8).take 32).length = 32 := by
    simp [List.length_take, List.length_drop]
    omega
  refine ⟨?_, ?_, ?_⟩
  · rw [hout, field_extract _ _ _ 4 hpre4 (by simp)]
    exact fromLe4_to_bytes hov
  · have hassoc : simple_wav_concatenation [c1, c2] =
        ((c1.take 44).take 4 ++
          ([(c1.length - 44 + (c2.length - 44) + 36) % 256,
              (c1.length - 44 + (c2.length - 44) + 36) / 256 % 256,
              (c1.length - 44 + (c2.length - 44) + 36) / 65536 % 256,
              (c1.length - 44 + (c2.length - 44) + 36) / 16777216 % 256] ++
            ((c1.take 44).drop 8).take 32)) ++
          ([(c1.length - 44 + (c2.length - 44)) % 256,
              (c1.length - 44 + (c2.length - 44)) / 256 % 256,
              (c1.length - 44 + (c2.length - 44)) / 65536 % 256,
              (c1.length - 44 + (c2.length - 44)) / 16777216 % 256] ++
            (if 44 < c2.length then c1.drop 44 ++ c2.drop 44 else c1.drop 44)) := by
      rw [hout]
      simp [List.append_assoc]
    have hlen40 : ((c1.take 44).take 4 ++
        ([(c1.length - 44 + (c2.length - 44) + 36) % 256,
            (c1.length - 44 + (c2.length - 44) + 36) / 256 % 256,
            (c1.length - 44 + (c2.length - 44) + 36) / 65536 % 256,
            (c1.length - 44 + (c2.length - 44) + 36) / 16777216 % 256] ++
          ((c1.take 44).drop 8).take 32)).length = 40 := by
      simp only [List.length_append, hpre4, hmid, List.length_cons, List.length_nil]
    rw [hassoc, field_extract _ _ _ 40 hlen40 (by simp)]
    exact fromLe4_to_bytes (by omega)
  · rw [hout]
    simp only [List.length_append, hpre4, hmid, List.length_cons, List.length_nil, haudio]
    omega

/-- A well-formed 46-byte WAV file: canonical 44-byte PCM header declaring a
2-byte payload, followed by the payload `[10, 20]`. -/
def wavChunkA : List Nat :=
  [82, 73, 70, 70, 38, 0, 0, 0, 87, 65, 86, 69, 102, 109, 116, 32, 16, 0, 0, 0,
    1, 0, 1, 0, 68, 172, 0, 0, 136, 88, 1, 0, 2, 0, 16, 0, 100, 97, 116, 97,
    2, 0, 0, 0, 10, 20]

/-- A second well-formed 46-byte WAV file with payload `[30, 40]`. -/
def wavChunkB : List Nat :=
  [82, 73, 70, 70, 38, 0, 0, 0, 87, 65, 86, 69, 102, 109, 116, 32, 16, 0, 0, 0,
    1, 0, 1, 0, 68, 172, 0, 0, 136, 88, 1, 0, 2, 0, 16, 0, 100, 97, 116, 97,
    2, 0, 0, 0, 30, 40]

/-- C8, counterexample.  The claim says both size fields hold
`payloads + header size` (`2 + 2 + 44 = 48`); the code writes
`payloads + 36 = 40` into bytes 4..8 (RIFF size is the file size minus 8)
and `payloads = 4` into bytes 40..44, so neither field holds 48. -/
theorem C8_counterexample :
    44 ≤ wavChunkA.length ∧ 44 ≤ wavChunkB.length ∧
      ¬ (fromLe4 (((simple_wav_concatenation [wavChunkA, wavChunkB]).drop 4).take 4) =
          wavChunkA.length - 44 + (wavChunkB.length - 44) + 44 ∧
        fromLe4 (((simple_wav_concatenation [wavChunkA, wavChunkB]).drop 40).take 4) =
          wavChunkA.length - 44 + (wavChunkB.length - 44) + 44) := by
  decide

/-- C8, witness at the two concrete 46-byte WAV chunks. -/
theorem C8_witness :
    44 ≤ wavChunkA.length ∧ 44 ≤ wavChunkB.length ∧
      wavChunkA.length - 44 + (wavChunkB.length - 44) + 36 < 4294967296 ∧
      (fromLe4 (((simple_wav_concatenation [wavChunkA, wavChunkB]).drop 4).take 4) =
          wavChunkA.length - 44 + (wavChunkB.length - 44) + 36 ∧
        fromLe4 (((simple_wav_concatenation [wavChunkA, wavChunkB]).drop 40).take 4) =
          wavChunkA.length - 44 + (wavChunkB.length - 44) ∧
        (simple_wav_concatenation [wavChunkA, wavChunkB]).length =
          wavChunkA.length - 44 + (wavChunkB.length - 44) + 44) :=
  ⟨by decide, by decide, by decide,
    C8_wav_size_fields wavChunkA wavChunkB (by decide) (by decide) (by decide)⟩

/-! ## Claim C4 -/

theorem generate_speech_long_text_error {u : List Char → List Char} {t : List Char}
    {M : Int} {p : Bool} {e : String} (h : sanitize_text u t = Except.error e) :
    generate_speech_long_text u t M p = Except.error e := by
  unfold generate_speech_long_text
  rw [h]

/-- C4, counterexample.  The long-text pipeline does NOT accept text of
arbitrary length: `sanitize_text` raises `ValueError` for input longer than
50000 characters before any segmentation, so a 50001-character text is
rejected because of its length. -/
theorem C4_counterexample :
    List.replicate 50001 'a' ≠ ([] : List Char) ∧
      generate_speech_long_text id (List.replicate 50001 'a') 1000 true =
        Except.error tooLongMsg := by
  have hne : List.replicate 50001 'a' ≠ ([] : List Char) := by
    intro h
    have h2 := congrArg List.length h
    rw [List.length_replicate, List.length_nil] at h2
    exact absurd h2 (by omega)
  have hlen : 50000 < (List.replicate 50001 'a').length := by
    rw [List.length_replicate]
    omega
  refine ⟨hne, ?_⟩
  have hemp : ¬ ((List.replicate 50001 'a').isEmpty = true) := by
    rw [List.isEmpty_iff]
    exact hne
  have hsan : sanitize_text id (List.replicate 50001 'a') = Except.error tooLongMsg := by
    unfold sanitize_text
    rw [if_neg hemp, if_pos hlen]
  exact generate_speech_long_text_error hsan

/-- C4, amended.  The pipeline accepts text only up to 50000 characters:
for input of length at most 50000 it is never rejected for length — it
proceeds to segment the sanitized text (returning the chunk list, or the
`no valid chunks` error when everything sanitizes away) — while input longer
than 50000 characters is rejected by `sanitize_text` before any
segmentation. -/
theorem C4_pipeline_length_cap (unescapeHtml : List Char → List Char) (text : List Char)
    (M : Int) (p : Bool) :
    (text.length ≤ 50000 →
      generate_speech_long_text unescapeHtml text M p =
          Except.ok (split_text_by_length (sanitize_body unescapeHtml text) M p) ∨
        generate_speech_long_text unescapeHtml text M p = Except.error noChunksMsg) ∧
      (50000 < text.length →
        generate_speech_long_text unescapeHtml text M p = Except.error tooLongMsg) := by
  constructor
  · intro h
    unfold generate_speech_long_text sanitize_text
    by_cases h0 : text.isEmpty = true
    · rw [if_pos h0]
      right
      simp [split_text_by_length]
    · rw [if_neg h0, if_neg (by omega)]
      by_cases hc :
          (split_text_by_length (sanitize_body unescapeHtml text) M p).isEmpty = true
      · right
        simp [hc]
      · left
        simp [hc]
  · intro h
    have h0 : ¬ (text.isEmpty = true) := by
      rw [List.isEmpty_iff]
      intro hnil
      subst hnil
      simp at h
    unfold generate_speech_long_text sanitize_text
    rw [if_neg h0, if_pos (by omega)]

/-- C4, witness at `text = "a"` (accepted) and a 50001-character text
(rejected). -/
theorem C4_witness :
    ((['a'] : List Char).length ≤ 50000 ∧
      (generate_speech_long_text id ['a'] 1000 true =
          Except.ok (split_text_by_length (sanitize_body id ['a']) 1000 true) ∨
        generate_speech_long_text id ['a'] 1000 true = Except.error noChunksMsg)) ∧
      (50000 < (List.replicate 50001 'a').length ∧
        generate_speech_long_text id (List.replicate 50001 'a') 1000 true =
          Except.error tooLongMsg) :=
  ⟨⟨by decide, (C4_pipeline_length_cap id ['a'] 1000 true).1 (by decide)⟩,
    ⟨by rw [List.length_replicate]; omega,
      (C4_pipeline_length_cap id (List.replicate 50001 'a') 1000 true).2
        (by rw [List.length_replicate]; omega)⟩⟩

/-! ## Claim C1 -/

/-- C1, counterexample.  A batch with one successful and one fatally failed
chunk: `AsyncTTSClient.generate_speech_batch` raises the chunk's exception
(`ttsfm/async_client.py` lines 354-360) instead of recording it and
returning the successful chunk as a partial result. -/
theorem C1_counterexample :
    generate_speech_batch [Except.ok [1], Except.error "boom"] = Except.error "boom" ∧
      ∀ rs : List (List Nat),
        generate_speech_batch [Except.ok [1], Except.error "boom"] ≠ Except.ok rs := by
  constructor
  · rfl
  · intro rs h
    rw [show generate_speech_batch [Except.ok [1], Except.error "boom"] =
        (Except.error "boom" : Except String (List (List Nat))) from rfl] at h
    exact absurd h (by simp)

theorem generate_speech_batch_error {α : Type} (outs : List (Except String α)) :
    (∃ e, Except.error e ∈ outs) → ∃ e, generate_speech_batch outs = Except.error e := by
  induction outs with
  | nil =>
    intro h
    obtain ⟨e, he⟩ := h
    simp at he
  | cons o rest ih =>
    intro h
    obtain ⟨e, he⟩ := h
    cases o with
    | error e0 => exact ⟨e0, rfl⟩
    | ok r =>
      have hrest : ∃ e, Except.error e ∈ rest := by
        rcases List.mem_cons.mp he with h0 | h0
        · exact absurd h0 (by simp)
        · exact ⟨e, h0⟩
      obtain ⟨e1, he1⟩ := ih hrest
      refine ⟨e1, ?_⟩
      simp only [generate_speech_batch, he1]

theorem streamLoop_audio_mem (total : Nat) (outcomes : List (Except String (List Nat))) :
    ∀ start i a, outcomes[i]? = some (Except.ok a) →
      WsEvent.audio_chunk (start + i) total a ∈ streamLoop total start outcomes := by
  induction outcomes with
  | nil => intro start i a h; simp at h
  | cons o rest ih =>
    intro start i a h
    cases i with
    | zero =>
      simp at h
      subst h
      simp [streamLoop]
    | succ i =>
      simp only [List.getElem?_cons_succ] at h
      have hmem := ih (start + 1) i a h
      have harith : start + (i + 1) = start + 1 + i := by omega
      rw [harith]
      cases o with
      | ok a2 => simp [streamLoop, hmem]
      | error e => simp [streamLoop, hmem]

theorem streamLoop_error_mem (total : Nat) (outcomes : List (Except String (List Nat))) :
    ∀ (start i : Nat) (e : String), outcomes[i]? = some (Except.error e) →
      WsEvent.stream_error ("Chunk " ++ toString (start + i) ++ " generation failed: " ++ e) ∈
        streamLoop total start outcomes := by
  induction outcomes with
  | nil => intro start i e h; simp at h
  | cons o rest ih =>
    intro start i e h
    cases i with
    | zero =>
      simp at h
      subst h
      simp [streamLoop]
    | succ i =>
      simp only [List.getElem?_cons_succ] at h
      have hmem := ih (start + 1) i e h
      have harith : start + (i + 1) = start + 1 + i := by omega
      rw [harith]
      cases o with
      | ok a2 => simp [streamLoop, hmem]
      | error e2 => simp [streamLoop, hmem]

theorem streamLoop_no_complete (total : Nat) (outcomes : List (Except String (List Nat))) :
    ∀ start, (streamLoop total start outcomes).filter isComplete = [] := by
  induction outcomes with
  | nil => intro start; simp [streamLoop]
  | cons o rest ih =>
    intro start
    cases o with
    | ok a => simp [streamLoop, List.filter_cons, isComplete, ih]
    | error e => simp [streamLoop, List.filter_cons, isComplete, ih]

theorem sessionTrace_one_complete (outcomes : List (Except String (List Nat))) :
    (sessionTrace outcomes).filter isComplete = [WsEvent.stream_complete outcomes.length] := by
  simp [sessionTrace, generateStreamTrace, List.filter_cons, List.filter_append,
    isComplete, streamLoop_no_complete]

/-- C1, amended.  When at least one chunk outcome is a failure, the client
batch run (`AsyncTTSClient.generate_speech_batch`) raises and returns no
partial result; it is only the web STREAMING path
(`WebSocketTTSHandler._generate_stream`) that records the failure as a
per-chunk `stream_error` event, continues with the remaining chunks
(delivering an `audio_chunk` event for every successful chunk), and still
emits exactly one `stream_complete` after all chunks have been attempted. -/
theorem C1_batch_aborts_stream_continues (outs : List (Except String (List Nat)))
    (hfail : ∃ e, Except.error e ∈ outs) :
    (∃ e, generate_speech_batch outs = Except.error e) ∧
      (∀ i a, outs[i]? = some (Except.ok a) →
        WsEvent.audio_chunk i outs.length a ∈ sessionTrace outs) ∧
      (∀ (i : Nat) (e : String), outs[i]? = some (Except.error e) →
        WsEvent.stream_error ("Chunk " ++ toString i ++ " generation failed: " ++ e) ∈
          sessionTrace outs) ∧
      (sessionTrace outs).filter isComplete = [WsEvent.stream_complete outs.length] := by
  refine ⟨generate_speech_batch_error outs hfail, ?_, ?_, sessionTrace_one_complete outs⟩
  · intro i a h
    have hmem := streamLoop_audio_mem outs.length outs 0 i a h
    rw [Nat.zero_add] at hmem
    simp [sessionTrace, generateStreamTrace, hmem]
  · intro i e h
    have hmem := streamLoop_error_mem outs.length outs 0 i e h
    rw [Nat.zero_add] at hmem
    simp [sessionTrace, generateStreamTrace, hmem]

/-- C1, witness at outcomes `[ok [1], error "bad"]`. -/
theorem C1_witness :
    (∃ e, Except.error e ∈ [Except.ok [1], Except.error "bad"]) ∧
      ((∃ e, generate_speech_batch [Except.ok [1], Except.error "bad"] = Except.error e) ∧
        (∀ i a, [Except.ok [1], Except.error "bad"][i]? = some (Except.ok a) →
          WsEvent.audio_chunk i ([Except.ok [1], Except.error "bad"] :
              List (Except String (List Nat))).length a ∈
            sessionTrace [Except.ok [1], Except.error "bad"]) ∧
        (∀ (i : Nat) (e : String),
            [Except.ok [1], Except.error "bad"][i]? = some (Except.error e) →
          WsEvent.stream_error ("Chunk " ++ toString i ++ " generation failed: " ++ e) ∈
            sessionTrace [Except.ok [1], Except.error "bad"]) ∧
        (sessionTrace [Except.ok [1], Except.error "bad"]).filter isComplete =
          [WsEvent.stream_complete ([Except.ok [1], Except.error "bad"] :
              List (Except String (List Nat))).length]) :=
  ⟨⟨"bad", by decide⟩,
    C1_batch_aborts_stream_continues [Except.ok [1], Except.error "bad"] ⟨"bad", by decide⟩⟩

/-! ## Claim C9 -/

/-- C9, counterexample.  One `_make_request` call that needs four attempts
(three timeouts then exhaustion): every outbound attempt carries the SAME
generation token, because `form_data` — including
`"generation": str(uuid.uuid4())` — is built once BEFORE the retry loop and
each attempt sends `dict(form_data)` (`ttsfm/client.py` lines 383-436,
`ttsfm/async_client.py` lines 407-448).  In particular attempts 0 and 1 are
distinct attempts with equal tokens, contradicting the claim. -/
theorem C9_counterexample :
    ((make_request ['h', 'i'] "alloy" "mp3" "token-1" 3
          (fun _ => UpstreamOutcome.timeout)).1.map FormPayload.generation) =
        ["token-1", "token-1", "token-1", "token-1"] ∧
      2 ≤ (make_request ['h', 'i'] "alloy" "mp3" "token-1" 3
          (fun _ => UpstreamOutcome.timeout)).1.length := by
  constructor
  · decide
  · decide

theorem makeRequestLoop_payload_const (fd : FormPayload)
    (outcome : Nat → UpstreamOutcome) :
    ∀ remaining attempt p, p ∈ (makeRequestLoop fd outcome attempt remaining).1 → p = fd := by
  intro remaining
  induction remaining with
  | zero =>
    intro attempt p hp
    rw [makeRequestLoop.eq_def] at hp
    cases h : outcome attempt <;> rw [h] at hp <;> simp_all
  | succ r ih =>
    intro attempt p hp
    rw [makeRequestLoop.eq_def] at hp
    cases h : outcome attempt with
    | ok body ct =>
      rw [h] at hp
      simp_all
    | httpStatus code =>
      rw [h] at hp
      by_cases hc : nonRetryable code = true
      · simp [hc] at hp
        exact hp
      · simp [hc] at hp
        rcases hp with rfl | hp
        · rfl
        · exact ih (attempt + 1) p hp
    | timeout =>
      rw [h] at hp
      simp at hp
      rcases hp with rfl | hp
      · rfl
      · exact ih (attempt + 1) p hp
    | connectionError =>
      rw [h] at hp
      simp at hp
      rcases hp with rfl | hp
      · rfl
      · exact ih (attempt + 1) p hp

theorem processTtsAttempts_eq_map (uuids : Nat → String) (souts : Nat → ServerOutcome) :
    ∀ fuel k, ∃ j, processTtsAttempts uuids souts fuel k = (List.range' k j).map uuids := by
  intro fuel
  induction fuel with
  | zero =>
    intro k
    exact ⟨0, rfl⟩
  | succ fuel ih =>
    intro k
    cases h : souts k with
    | ok body =>
      refine ⟨1, ?_⟩
      simp [processTtsAttempts, h, List.range'_succ]
    | finalStatus code =>
      refine ⟨1, ?_⟩
      simp [processTtsAttempts, h, List.range'_succ]
    | retryAgain =>
      obtain ⟨j, hj⟩ := ih (k + 1)
      refine ⟨j + 1, ?_⟩
      simp [processTtsAttempts, h, hj, List.range'_succ]

/-- C9, amended.  In the library clients the generation token is drawn once
per `_make_request` call and REUSED verbatim by every retry attempt of that
call; only the queue server's `process_tts_request` (`server/handlers.py`
line 207) executes a fresh `str(uuid.uuid4())` before every outbound
attempt, so there — provided the uuid draws are distinct — distinct
attempts carry pairwise distinct tokens. -/
theorem C9_token_per_call_not_per_attempt (inputText : List Char)
    (voice fmtv gen : String) (maxRetries : Nat) (outcome : Nat → UpstreamOutcome)
    (uuids : Nat → String) (souts : Nat → ServerOutcome) (fuel k : Nat)
    (hinj : Function.Injective uuids) :
    (∀ p ∈ (make_request inputText voice fmtv gen maxRetries outcome).1,
        p.generation = gen) ∧
      (processTtsAttempts uuids souts fuel k).Nodup := by
  constructor
  · intro p hp
    have := makeRequestLoop_payload_const
      ⟨inputText, voice, gen, fmtv⟩ outcome maxRetries 0 p hp
    rw [this]
  · obtain ⟨j, hj⟩ := processTtsAttempts_eq_map uuids souts fuel k
    rw [hj]
    exact (List.nodup_range' k j).map hinj

/-- A concrete injective uuid stream for the witness. -/
def uuidSeq (n : Nat) : String := String.mk (List.replicate n 'u')

theorem uuidSeq_injective : Function.Injective uuidSeq := by
  intro a b h
  have h2 := congrArg (fun s : String => s.data.length) h
  simpa [uuidSeq] using h2

/-- C9, witness: a client call with two retries and a three-attempt server
window. -/
theorem C9_witness :
    Function.Injective uuidSeq ∧
      ((∀ p ∈ (make_request ['h', 'i'] "alloy" "mp3" "tok" 2
            (fun _ => UpstreamOutcome.timeout)).1, p.generation = "tok") ∧
        (processTtsAttempts uuidSeq (fun _ => ServerOutcome.retryAgain) 3 0).Nodup) :=
  ⟨uuidSeq_injective,
    C9_token_per_call_not_per_attempt ['h', 'i'] "alloy" "mp3" "tok" 2
      (fun _ => UpstreamOutcome.timeout) uuidSeq (fun _ => ServerOutcome.retryAgain) 3 0
      uuidSeq_injective⟩

/-! ## Claim C10 -/

theorem streamLoop_no_started (total : Nat) (outcomes : List (Except String (List Nat))) :
    ∀ start, (streamLoop total start outcomes).filter isStarted = [] := by
  induction outcomes with
  | nil => intro start; simp [streamLoop]
  | cons o rest ih =>
    intro start
    cases o with
    | ok a => simp [streamLoop, List.filter_cons, isStarted, ih]
    | error e => simp [streamLoop, List.filter_cons, isStarted, ih]

theorem sessionTrace_one_started (outcomes : List (Except String (List Nat))) :
    (sessionTrace outcomes).filter isStarted = [WsEvent.stream_started] := by
  simp [sessionTrace, generateStreamTrace, List.filter_cons, List.filter_append,
    isStarted, streamLoop_no_started]

theorem streamLoop_ok_shape (total : Nat) :
    ∀ (outs : List (Except String (List Nat))), (∀ o ∈ outs, ∃ a, o = Except.ok a) →
      ∀ start, audioIndices (streamLoop total start outs) = List.range' start outs.length ∧
        progressValues (streamLoop total start outs) =
          (List.range' (start + 1) outs.length).map (fun j => 100 * j / total) := by
  intro outs
  induction outs with
  | nil => intro _ start; simp [streamLoop, audioIndices, progressValues]
  | cons o rest ih =>
    intro hok start
    obtain ⟨a, rfl⟩ := hok o (List.mem_cons_self o rest)
    have hrest := ih (fun o ho => hok o (List.mem_cons_of_mem _ ho)) (start + 1)
    constructor
    · simp only [streamLoop, audioIndices, List.filterMap_cons, List.length_cons,
        List.range'_succ]
      rw [show (List.range' (start + 1) rest.length : List Nat) = audioIndices
        (streamLoop total (start + 1) rest) from hrest.1.symm]
      rfl
    · simp only [streamLoop, progressValues, List.filterMap_cons, List.length_cons,
        List.range'_succ, List.map_cons]
      rw [show ((List.range' (start + 1 + 1) rest.length).map (fun j => 100 * j / total) :
        List Nat) = progressValues (streamLoop total (start + 1) rest) from hrest.2.symm]
      rfl

theorem chain_le_map_range' (f : Nat → Nat) (hf : ∀ a b, a ≤ b → f a ≤ f b) :
    ∀ k s, List.Chain' (fun a b => a ≤ b) ((List.range' s k).map f) := by
  intro k
  induction k with
  | zero => intro s; simp
  | succ k ih =>
    intro s
    cases k with
    | zero => simp [List.range'_succ]
    | succ k2 =>
      rw [List.range'_succ, List.range'_succ]
      simp only [List.map_cons]
      rw [List.chain'_cons]
      constructor
      · exact hf s (s + 1) (by omega)
      · have h2 := ih (s + 1)
        rw [List.range'_succ, List.map_cons] at h2
        exact h2

theorem getLast?_cons_ne {α : Type} (a : α) (l : List α) (h : l ≠ []) :
    (a :: l).getLast? = l.getLast? := by
  cases l with
  | nil => exact absurd rfl h
  | cons b t => exact List.getLast?_cons_cons

theorem map_range'_getLast? (f : Nat → Nat) :
    ∀ k s, 1 ≤ k → ((List.range' s k).map f).getLast? = some (f (s + k - 1)) := by
  intro k
  induction k with
  | zero => intro s h; omega
  | succ k ih =>
    intro s _
    cases k with
    | zero => simp [List.range'_succ]
    | succ k2 =>
      rw [List.range'_succ, List.map_cons]
      rw [List.range'_succ, List.map_cons]
      rw [List.getLast?_cons_cons]
      have h2 := ih (s + 1) (by omega)
      rw [List.range'_succ, List.map_cons] at h2
      rw [h2]
      have harith : s + 1 + (k2 + 1) - 1 = s + (k2 + 1 + 1) - 1 := by omega
      rw [harith]

/-- C10: for a streaming session whose chunks all synthesize successfully,
the trace contains exactly one `stream_started`, exactly one `audio_chunk`
per chunk index in order, progress values `int(completed / total * 100)`
that are non-decreasing and end at 100, and exactly one `stream_complete`
as the final event. -/
theorem C10_stream_success_trace (outs : List (Except String (List Nat)))
    (hne : outs ≠ []) (hok : ∀ o ∈ outs, ∃ a, o = Except.ok a) :
    (sessionTrace outs).filter isStarted = [WsEvent.stream_started] ∧
      audioIndices (sessionTrace outs) = List.range outs.length ∧
      List.Chain' (fun a b => a ≤ b) (progressValues (sessionTrace outs)) ∧
      (progressValues (sessionTrace outs)).getLast? = some 100 ∧
      (sessionTrace outs).filter isComplete = [WsEvent.stream_complete outs.length] ∧
      (sessionTrace outs).getLast? = some (WsEvent.stream_complete outs.length) := by
  obtain ⟨hidx, hprog⟩ := streamLoop_ok_shape outs.length outs hok 0
  have hlen1 : 1 ≤ outs.length := List.length_pos.mpr hne
  have haudio : audioIndices (sessionTrace outs) =
      audioIndices (streamLoop outs.length 0 outs) := by
    simp [sessionTrace, generateStreamTrace, audioIndices, List.filterMap_cons,
      List.filterMap_append]
  have hprogall : progressValues (sessionTrace outs) =
      0 :: progressValues (streamLoop outs.length 0 outs) := by
    simp [sessionTrace, generateStreamTrace, progressValues, List.filterMap_cons,
      List.filterMap_append]
  refine ⟨sessionTrace_one_started outs, ?_, ?_, ?_, sessionTrace_one_complete outs, ?_⟩
  · rw [haudio, hidx, List.range_eq_range']
  · rw [hprogall, hprog]
    rw [List.chain'_cons']
    constructor
    · intro y _
      omega
    · exact chain_le_map_range' (fun j => 100 * j / outs.length)
        (fun a b hab => Nat.div_le_div_right (by omega)) outs.length (0 + 1)
  · rw [hprogall, hprog]
    have hne2 : (List.range' (0 + 1) outs.length).map (fun j => 100 * j / outs.length) ≠
        [] := by
      intro h
      have h3 := congrArg List.length h
      simp only [List.length_map, List.length_range', List.length_nil] at h3
      omega
    rw [getLast?_cons_ne _ _ hne2]
    rw [map_range'_getLast? (fun j => 100 * j / outs.length) outs.length (0 + 1) hlen1]
    have harith : 0 + 1 + outs.length - 1 = outs.length := by omega
    rw [harith]
    have h100 : 100 * outs.length / outs.length = 100 := by
      rw [Nat.mul_div_assoc 100 (Nat.dvd_refl outs.length), Nat.div_self (by omega)]
    simp [h100]
  · simp only [sessionTrace, generateStreamTrace]
    rw [show (WsEvent.stream_started : WsEvent) ::
        WsEvent.stream_progress 0 none ::
          (streamLoop outs.length 0 outs ++ [WsEvent.stream_complete outs.length]) =
        (WsEvent.stream_started :: WsEvent.stream_progress 0 none ::
          streamLoop outs.length 0 outs) ++ [WsEvent.stream_complete outs.length] from by
      simp]
    exact List.getLast?_concat _

/-- C10, witness at a 4-chunk all-success session. -/
theorem C10_witness :
    (([Except.ok [1], Except.ok [2], Except.ok [3], Except.ok [4]] :
        List (Except String (List Nat))) ≠ []) ∧
      ((sessionTrace [Except.ok [1], Except.ok [2], Except.ok [3], Except.ok [4]]).filter
          isStarted = [WsEvent.stream_started] ∧
        audioIndices (sessionTrace [Except.ok [1], Except.ok [2], Except.ok [3],
          Except.ok [4]]) = List.range ([Except.ok [1], Except.ok [2], Except.ok [3],
            Except.ok [4]] : List (Except String (List Nat))).length ∧
        List.Chain' (fun a b => a ≤ b) (progressValues (sessionTrace [Except.ok [1],
          Except.ok [2], Except.ok [3], Except.ok [4]])) ∧
        (progressValues (sessionTrace [Except.ok [1], Except.ok [2], Except.ok [3],
          Except.ok [4]])).getLast? = some 100 ∧
        (sessionTrace [Except.ok [1], Except.ok [2], Except.ok [3],
          Except.ok [4]]).filter isComplete =
          [WsEvent.stream_complete ([Except.ok [1], Except.ok [2], Except.ok [3],
            Except.ok [4]] : List (Except String (List Nat))).length] ∧
        (sessionTrace [Except.ok [1], Except.ok [2], Except.ok [3],
          Except.ok [4]]).getLast? =
          some (WsEvent.stream_complete ([Except.ok [1], Except.ok [2], Except.ok [3],
            Except.ok [4]] : List (Except String (List Nat))).length)) :=
  ⟨by decide,
    C10_stream_success_trace [Except.ok [1], Except.ok [2], Except.ok [3], Except.ok [4]]
      (by decide)
      (by
        intro o ho
        simp at ho
        rcases ho with rfl | rfl | rfl | rfl <;> exact ⟨_, rfl⟩)⟩
